import Mathlib

set_option maxHeartbeats 1000000

/-!
Shallow embedding of the feishu_agent metadata-resolution layer:
`src/providers/project/managers/metadata_manager.py` (MetadataManager) and
`src/providers/project/work_item_provider.py` (WorkItemProvider).

Python dicts are modelled as insertion-ordered association lists with
distinct keys (lookup finds the first matching key; assignment replaces in
place or appends, as CPython dicts do).  Wall-clock time (`time.time()`) is
modelled as an integer passed explicitly.  Remote API results are supplied
as explicit data (a gateway record or function argument), and the coroutine
code is modelled sequentially: the double-checked-locking structure is kept,
with the "locked" section as a separate function.  Python exceptions are
modelled by `PyExc`, distinguishing the classes that matter to the
`except (ValueError, KeyError)` clauses in the provider.
-/

/-- Python runtime values, restricted to the shapes that appear in
work-item payloads: strings, integers, None, dicts with string keys, and
lists. -/
inductive PyVal where
  | pstr (s : String)
  | pint (n : Int)
  | pnone
  | pdict (entries : List (String × PyVal))
  | plist (elems : List PyVal)

/-- Python truthiness for the modelled values. -/
def PyVal.truthy : PyVal → Bool
  | .pstr s => s != ""
  | .pint n => n != 0
  | .pnone => false
  | .pdict es => !es.isEmpty
  | .plist es => !es.isEmpty

/-- `d.get(k)` on a Python dict: the value when the key is present,
`None` otherwise. -/
def pyGet (es : List (String × PyVal)) (k : String) : PyVal :=
  match es.lookup k with
  | some v => v
  | none => .pnone

/-- Python `a or b`. -/
def pyOr (a b : PyVal) : PyVal := if a.truthy then a else b

mutual

/-- Python `str(...)` on the modelled values (lists and dicts render their
elements with `repr`, as CPython does). -/
def pyToString : PyVal → String
  | .pstr s => s
  | .pint n => toString n
  | .pnone => "None"
  | .pdict es => "\x7b" ++ pyDictRepr es ++ "\x7d"
  | .plist es => "[" ++ pyListRepr es ++ "]"

/-- Python `repr(...)` on the modelled values. -/
def pyRepr : PyVal → String
  | .pstr s => "'" ++ s ++ "'"
  | .pint n => toString n
  | .pnone => "None"
  | .pdict es => "\x7b" ++ pyDictRepr es ++ "\x7d"
  | .plist es => "[" ++ pyListRepr es ++ "]"

def pyListRepr : List PyVal → String
  | [] => ""
  | [v] => pyRepr v
  | v :: vs => pyRepr v ++ ", " ++ pyListRepr vs

def pyDictRepr : List (String × PyVal) → String
  | [] => ""
  | [(k, v)] => "'" ++ k ++ "': " ++ pyRepr v
  | (k, v) :: es => "'" ++ k ++ "': " ++ pyRepr v ++ ", " ++ pyDictRepr es

end

/-- Python exceptions, distinguishing the classes the provider's
`except (ValueError, KeyError)` clauses can catch from the plain
`Exception` that `MetadataManager` raises. -/
inductive PyExc where
  | exc (msg : String)
  | valueError (msg : String)
  | keyError (msg : String)
deriving Repr, DecidableEq

/-- Whether an exception is caught by `except (ValueError, KeyError)`. -/
def PyExc.isValueOrKeyError : PyExc → Bool
  | .valueError _ => true
  | .keyError _ => true
  | .exc _ => false

/-- `dict.values()` of a string-to-string dict. -/
def dictValues (m : List (String × String)) : List String := m.map Prod.snd

/-- `dict.keys()` of a string-to-string dict. -/
def dictKeys (m : List (String × String)) : List String := m.map Prod.fst

/-- Python dict assignment `m[k] = v`: the first entry with key `k` is
replaced in place, otherwise the pair is appended (insertion order). -/
def dictSet (m : List (String × String)) (k v : String) : List (String × String) :=
  match m with
  | [] => [(k, v)]
  | (k', v') :: rest => if k' = k then (k, v) :: rest else (k', v') :: dictSet rest k v

/-- Dict assignment for dicts with `PyVal` values (used by the
list-to-dict compatibility conversion in `get_project_key`). -/
def pdictSet (m : List (String × PyVal)) (k : String) (v : PyVal) : List (String × PyVal) :=
  match m with
  | [] => [(k, v)]
  | (k', v') :: rest => if k' = k then (k, v) :: rest else (k', v') :: pdictSet rest k v

namespace MetadataManager

/-- Cache TTLs in seconds (`MetadataManager` class constants). -/
def PROJECT_TTL : Int := 3600

def TYPE_TTL : Int := 1800

def FIELD_TTL : Int := 1800

def USER_TTL : Int := 1800

/-- Maximum size of the project cache (`self._max_project_cache_size`). -/
def max_project_cache_size : Nat := 50

/-- `MetadataManager._is_cache_expired`: true when never loaded, or when
`now - last_loaded > ttl` (a strict comparison in the source). -/
def is_cache_expired (last_loaded : Option Int) (now ttl : Int) : Bool :=
  match last_loaded with
  | none => true
  | some t => decide (now - t > ttl)

/-- `MetadataManager.get_field_key`, after `_ensure_field_cache` has
populated `field_map` for the (project, type) scope: exact name/alias
match first, then the value-as-key fallback, else a plain `Exception`. -/
def get_field_key (field_map : List (String × String)) (field_name : String) :
    Except PyExc String :=
  match field_map.lookup field_name with
  | some k => .ok k
  | none =>
    if (dictValues field_map).contains field_name then .ok field_name
    else .error (.exc ("字段 " ++ field_name ++ " 未找到"))

/-- `MetadataManager.get_option_value`, after the option cache for the
(project, type, field) scope has been populated into `option_map`. -/
def get_option_value (option_map : List (String × String)) (option_label : String) :
    Except PyExc String :=
  match option_map.lookup option_label with
  | some v => .ok v
  | none =>
    if (dictValues option_map).contains option_label then .ok option_label
    else .error (.exc ("选项 " ++ option_label ++ " 未找到"))

/-- `MetadataManager.list_options`: a copy of the cached label-to-value
map for the scope. -/
def list_options (option_map : List (String × String)) : List (String × String) :=
  option_map

/-- `MetadataManager.get_role_key`, after the role cache has been
populated into `role_map`: same exact-then-value-fallback shape. -/
def get_role_key (role_map : List (String × String)) (role_name : String) :
    Except PyExc String :=
  match role_map.lookup role_name with
  | some k => .ok k
  | none =>
    if (dictValues role_map).contains role_name then .ok role_name
    else .error (.exc ("角色 " ++ role_name ++ " 未找到"))

/-- `MetadataManager.get_type_key`, after the type cache for the project
has been populated into `type_map`: exact match only (no value fallback),
else a plain `Exception` (not a ValueError/KeyError). -/
def get_type_key (type_map : List (String × String)) (type_name : String) :
    Except PyExc String :=
  match type_map.lookup type_name with
  | some k => .ok k
  | none => .error (.exc ("工作项类型 " ++ type_name ++ " 未找到"))

/-- The L1 project cache: `_project_cache` plus `_project_last_loaded`. -/
structure ProjState where
  cache : List (String × String)
  last_loaded : Option Int

/-- The remote data `get_project_key` fetches on a miss:
`project_api.list_projects()` and `project_api.get_project_details(...)`
(the latter normally a dict `key -> info`, but a list shape is tolerated). -/
structure ProjGateway where
  project_keys : List String
  details : PyVal

/-- The `isinstance` normalization in `get_project_key`: a dict is used as
is; a list is converted via `temp_map[p["project_key"]] = p` for dict
elements carrying a (string) `project_key`; anything else becomes `{}`. -/
def normalize_project_details : PyVal → List (String × PyVal)
  | .pdict es => es
  | .plist ps =>
    ps.foldl
      (fun acc p =>
        match p with
        | .pdict d =>
          match d.lookup "project_key" with
          | some (.pstr k) => pdictSet acc k p
          | some _ => acc
          | none => acc
        | _ => acc)
      []
  | _ => []

/-- One iteration of the cache-fill loop in `get_project_key`:
`if isinstance(info, dict): name = info.get("name"); if name:
cache[name] = key` (cache keys are strings, so only string names are
representable in the model). -/
def insert_project (cache : List (String × String)) (key : String) (info : PyVal) :
    List (String × String) :=
  match info with
  | .pdict d =>
    match d.lookup "name" with
    | some (.pstr nm) => if nm != "" then dictSet cache nm key else cache
    | _ => cache
  | _ => cache

/-- The whole cache-fill loop of `get_project_key`. -/
def fill_projects (cache : List (String × String)) (projects : List (String × PyVal)) :
    List (String × String) :=
  projects.foldl (fun acc kv => insert_project acc kv.1 kv.2) cache

/-- The load path of `get_project_key` (reached under the lock when the
target name is still missing): raise when `list_projects` is empty;
otherwise evict the single oldest entry when the cache already holds at
least `max_project_cache_size` entries, insert the whole fetched batch,
stamp the load time, and look the target up again.  The returned `Nat`
counts remote repopulations (0 or 1 per call). -/
def get_project_key_load (st : ProjState) (now : Int) (gw : ProjGateway)
    (project_name : String) : Except PyExc String × ProjState × Nat :=
  if gw.project_keys.isEmpty then
    (.error (.exc "未找到任何项目空间"), st, 1)
  else
    let projects := normalize_project_details gw.details
    let cache1 := if max_project_cache_size ≤ st.cache.length then st.cache.tail else st.cache
    let cache2 := fill_projects cache1 projects
    let st2 : ProjState := ⟨cache2, some now⟩
    match cache2.lookup project_name with
    | some k => (.ok k, st2, 1)
    | none => (.error (.exc ("项目空间 " ++ project_name ++ " 未找到")), st2, 1)

/-- The locked section of `get_project_key`: clear the whole level when
expired, re-check the cache, then load. -/
def get_project_key_locked (st : ProjState) (now : Int) (gw : ProjGateway)
    (project_name : String) : Except PyExc String × ProjState × Nat :=
  let st1 := if is_cache_expired st.last_loaded now PROJECT_TTL then ProjState.mk [] none else st
  match st1.cache.lookup project_name with
  | some k => (.ok k, st1, 0)
  | none => get_project_key_load st1 now gw project_name

/-- `MetadataManager.get_project_key`: lock-free fast path when the name
is cached and the level is fresh, otherwise the locked section. -/
def get_project_key (st : ProjState) (now : Int) (gw : ProjGateway)
    (project_name : String) : Except PyExc String × ProjState × Nat :=
  match st.cache.lookup project_name with
  | some k =>
    if !(is_cache_expired st.last_loaded now PROJECT_TTL) then (.ok k, st, 0)
    else get_project_key_locked st now gw project_name
  | none => get_project_key_locked st now gw project_name

/-- One user record as returned by `user_api.search_users`; absent fields
are `none` (Python `.get` returns None). -/
structure ApiUser where
  user_key : Option String
  name_cn : Option String
  name_en : Option String
  email : Option String

/-- Python truthiness of an optional string (`if user_key:` etc.). -/
def truthyStr : Option String → Bool
  | some s => s != ""
  | none => false

/-- Python `a or b` on optional strings. -/
def orStr (a b : Option String) : Option String := if truthyStr a then a else b

/-- The L-User cache: `_user_cache` plus `_user_last_loaded`. -/
structure UserState where
  cache : List (String × String)
  last_loaded : Option Int

/-- Python `s.startswith(pre)`, modelled structurally on the character
lists. -/
def strStartsWith (s pre : String) : Bool :=
  pre.toList.isPrefixOf s.toList

/-- `MetadataManager._looks_like_user_key`: the heuristic that classifies
an identifier as an already-resolved user key (alphanumeric is modelled as
ASCII alphanumeric). -/
def looks_like_user_key (identifier : String) : Bool :=
  if identifier == "" then false
  else if strStartsWith identifier "user_" || strStartsWith identifier "ou_" ||
      strStartsWith identifier "usr_" || strStartsWith identifier "u_" then true
  else if identifier.toList.any (fun c => c.isWhitespace) then false
  else if identifier.toList.any (fun c => 0x4e00 ≤ c.val && c.val ≤ 0x9fff) then false
  else if 5 ≤ identifier.length ∧ identifier.length ≤ 100 then
    identifier.toList.all (fun c => c.isAlphanum || c == '_' || c == '-')
  else false

/-- One iteration of the cache-fill loop in `get_user_key`: a user with a
truthy `user_key` is cached under its display name
(`name_cn or name_en`, when truthy) and under its email (when truthy). -/
def fill_user (cache : List (String × String)) (u : ApiUser) : List (String × String) :=
  if truthyStr u.user_key then
    let key := u.user_key.getD ""
    let cache1 :=
      match orStr u.name_cn u.name_en with
      | some nm => if nm != "" then dictSet cache nm key else cache
      | none => cache
    match u.email with
    | some em => if em != "" then dictSet cache1 em key else cache1
    | none => cache1
  else cache

/-- The locked section of `get_user_key`: clear when expired, re-check,
self-map identifiers that look like keys, otherwise use the remote search
result `search_result`: raise when it is empty, fill the cache from every
returned user, return the cached entry for the identifier when the fill
produced one, else fall back to the first result's `user_key` (caching
`identifier -> key`), and raise only when that is missing/empty. -/
def get_user_key_locked (st : UserState) (now : Int) (search_result : List ApiUser)
    (identifier : String) : Except PyExc String × UserState :=
  let st1 := if is_cache_expired st.last_loaded now USER_TTL then UserState.mk [] none else st
  match st1.cache.lookup identifier with
  | some k => (.ok k, st1)
  | none =>
    if looks_like_user_key identifier then
      (.ok identifier, ⟨dictSet st1.cache identifier identifier, st1.last_loaded⟩)
    else
      match search_result with
      | [] => (.error (.exc ("用户 " ++ identifier ++ " 未找到")), st1)
      | u0 :: _ =>
        let cache2 := search_result.foldl fill_user st1.cache
        match cache2.lookup identifier with
        | some k => (.ok k, ⟨cache2, some now⟩)
        | none =>
          if truthyStr u0.user_key then
            let k := u0.user_key.getD ""
            (.ok k, ⟨dictSet cache2 identifier k, some now⟩)
          else
            (.error (.exc ("用户 " ++ identifier ++ " 未找到有效的 user_key")), ⟨cache2, some now⟩)

/-- `MetadataManager.get_user_key`: lock-free fast path when cached and
fresh, otherwise the locked section. -/
def get_user_key (st : UserState) (now : Int) (search_result : List ApiUser)
    (identifier : String) : Except PyExc String × UserState :=
  match st.cache.lookup identifier with
  | some k =>
    if !(is_cache_expired st.last_loaded now USER_TTL) then (.ok k, st)
    else get_user_key_locked st now search_result identifier
  | none => get_user_key_locked st now search_result identifier

end MetadataManager

namespace WorkItemProvider

/-- `WorkItemProvider._field_exists`: probe `meta.get_field_key`, return
`false` on an exception caught by `except (ValueError, KeyError)`; any
other exception escapes the probe. -/
def field_exists (field_map : List (String × String)) (field_name : String) :
    Except PyExc Bool :=
  match MetadataManager.get_field_key field_map field_name with
  | .ok _ => .ok true
  | .error e => if e.isValueOrKeyError then .ok false else .error e

/-- `WorkItemProvider._get_type_key` (first resolution, nothing cached in
`_resolved_type_key` yet): try `meta.get_type_key`; an exception caught by
`except (ValueError, KeyError)` triggers the fallback — re-raised for a
non-default type name, otherwise the first entry of `meta.list_types`
(modelled as the same remote type map) is substituted, raising a
ValueError when the project has no types at all.  Exceptions of other
classes escape. -/
def get_type_key (type_map : List (String × String)) (work_item_type_name : String) :
    Except PyExc String :=
  match MetadataManager.get_type_key type_map work_item_type_name with
  | .ok k => .ok k
  | .error e =>
    if e.isValueOrKeyError then
      if work_item_type_name != "问题管理" then .error e
      else
        match type_map with
        | [] => .error (.valueError "项目中没有可用的工作项类型")
        | (_, first_type_key) :: _ => .ok first_type_key
    else .error e

/-- One element of a raw work item's `fields` or `field_value_pairs`
list; absent keys are `none`/`pnone` (Python `.get`). -/
structure RawField where
  field_key : Option String
  field_value : PyVal

/-- A raw work item, as far as `_extract_field_value` reads it. -/
structure RawItem where
  fields : List RawField
  field_value_pairs : List RawField

/-- The per-value extraction shared by both branches of
`_extract_field_value`: a dict yields `label or value`; a non-empty list
whose first element is a dict yields `name or name_cn`; anything else
yields `str(value) if value else None`. -/
def extract_value : PyVal → PyVal
  | .pdict d => pyOr (pyGet d "label") (pyGet d "value")
  | .plist (h :: t) =>
    match h with
    | .pdict d => pyOr (pyGet d "name") (pyGet d "name_cn")
    | _ =>
      let v := PyVal.plist (h :: t)
      if v.truthy then .pstr (pyToString v) else .pnone
  | v => if v.truthy then .pstr (pyToString v) else .pnone

/-- `WorkItemProvider._extract_field_value`: search `fields` first, then
fall back to `field_value_pairs`; `None` when the key appears in
neither. -/
def extract_field_value (item : RawItem) (field_key : String) : PyVal :=
  match item.fields.find? (fun f => f.field_key == some field_key) with
  | some f => extract_value f.field_value
  | none =>
    match item.field_value_pairs.find? (fun f => f.field_key == some field_key) with
    | some f => extract_value f.field_value
    | none => .pnone

/-- `WorkItemProvider._resolve_field_value`: resolve an option label to
its value, falling back to the raw value on any exception. -/
def resolve_field_value (option_map : List (String × String)) (value : String) : String :=
  match MetadataManager.get_option_value option_map value with
  | .ok val => val
  | .error _ => value

/-- A remote work-item API call issued by the provider (`api.create` and
`api.update`); the create call carries the work item name separately from
its field list, as in `WorkItemAPI.create`. -/
inductive ApiCall where
  | create (name : String) (fields : List (String × String))
  | update (work_item_id : Int) (fields : List (String × String))

/-- The collaborators of `create_issue` / `update_issue` /
`filter_issues`, with remote results supplied as data: the (already
loaded) field map for the provider's (project, type) scope, the option
map per field key, the user resolver, and the outcomes of the create and
update endpoints. -/
structure ProviderEnv where
  field_map : List (String × String)
  option_map : String → List (String × String)
  user_key : String → Except PyExc String
  create_result : Except PyExc Int
  update_result : Except PyExc Unit

/-- `WorkItemProvider.create_issue`: build a minimal create payload
(description and assignee only — priority is never part of it), issue one
create call, then, for a truthy priority, try one follow-up update with
the resolved priority option value, swallowing any failure of that
follow-up.  Returns the calls issued and the outcome. -/
def create_issue (env : ProviderEnv) (name priority description : String)
    (assignee : Option String) : List ApiCall × Except PyExc Int :=
  let step_desc : Except PyExc (List (String × String)) :=
    if description != "" then
      match MetadataManager.get_field_key env.field_map "description" with
      | .ok fk => .ok [(fk, description)]
      | .error e => .error e
    else .ok []
  match step_desc with
  | .error e => ([], .error e)
  | .ok fields0 =>
    let step_owner : Except PyExc (List (String × String)) :=
      match assignee with
      | some a =>
        match env.user_key a with
        | .ok uk => .ok (fields0 ++ [("owner", uk)])
        | .error e => .error e
      | none => .ok fields0
    match step_owner with
    | .error e => ([], .error e)
    | .ok create_fields =>
      match env.create_result with
      | .error e => ([.create name create_fields], .error e)
      | .ok issue_id =>
        if priority != "" then
          match MetadataManager.get_field_key env.field_map "priority" with
          | .error _ => ([.create name create_fields], .ok issue_id)
          | .ok fk =>
            let option_val := resolve_field_value (env.option_map fk) priority
            match env.update_result with
            | .ok _ =>
              ([.create name create_fields, .update issue_id [(fk, option_val)]],
                .ok issue_id)
            | .error _ =>
              ([.create name create_fields, .update issue_id [(fk, option_val)]],
                .ok issue_id)
        else ([.create name create_fields], .ok issue_id)

/-- The update-fields list `update_issue` builds: one entry per provided
argument, in source order (name, description, priority, status,
assignee), resolving field keys, option labels and the assignee; a
resolution failure propagates. -/
def build_update_fields (env : ProviderEnv)
    (name priority description status assignee : Option String) :
    Except PyExc (List (String × String)) :=
  let fs1 := match name with | some n => [("name", n)] | none => []
  let step_desc : Except PyExc (List (String × String)) :=
    match description with
    | some d =>
      match MetadataManager.get_field_key env.field_map "description" with
      | .ok dk => .ok (fs1 ++ [(dk, d)])
      | .error e => .error e
    | none => .ok fs1
  match step_desc with
  | .error e => .error e
  | .ok fs2 =>
    let step_prio : Except PyExc (List (String × String)) :=
      match priority with
      | some p =>
        match MetadataManager.get_field_key env.field_map "priority" with
        | .ok pk => .ok (fs2 ++ [(pk, resolve_field_value (env.option_map pk) p)])
        | .error e => .error e
      | none => .ok fs2
    match step_prio with
    | .error e => .error e
    | .ok fs3 =>
      let step_status : Except PyExc (List (String × String)) :=
        match status with
        | some s =>
          match MetadataManager.get_field_key env.field_map "status" with
          | .ok sk => .ok (fs3 ++ [(sk, resolve_field_value (env.option_map sk) s)])
          | .error e => .error e
        | none => .ok fs3
      match step_status with
      | .error e => .error e
      | .ok fs4 =>
        match assignee with
        | some a =>
          match env.user_key a with
          | .ok uk => .ok (fs4 ++ [("owner", uk)])
          | .error e => .error e
        | none => .ok fs4

/-- `WorkItemProvider.update_issue`: build the update-fields list and
issue a single update call — or no remote call at all when the list is
empty. -/
def update_issue (env : ProviderEnv) (issue_id : Int)
    (name priority description status assignee : Option String) :
    List ApiCall × Except PyExc Unit :=
  match build_update_fields env name priority description status assignee with
  | .error e => ([], .error e)
  | .ok update_fields =>
    if update_fields.isEmpty then ([], .ok ())
    else ([.update issue_id update_fields], env.update_result)

/-- One condition of the AND-conjunction `search_group` that
`filter_issues` builds. -/
structure SearchCondition where
  field_key : String
  operator : String
  value : List String

/-- The condition-building part of `WorkItemProvider.filter_issues`: for
each of status and priority, a non-empty filter list is kept only when
`_field_exists` answers `true` (a probe exception propagates and aborts
the call); kept filters resolve each label best-effort.  An owner filter
is dropped on any resolution failure. -/
def filter_conditions (env : ProviderEnv) (status priority : List String)
    (owner : Option String) : Except PyExc (List SearchCondition) :=
  let step_status : Except PyExc (List SearchCondition) :=
    if status.isEmpty then .ok []
    else
      match field_exists env.field_map "status" with
      | .error e => .error e
      | .ok true =>
        match MetadataManager.get_field_key env.field_map "status" with
        | .error e => .error e
        | .ok fk =>
          .ok [⟨fk, "IN", status.map (fun s => resolve_field_value (env.option_map fk) s)⟩]
      | .ok false => .ok []
  match step_status with
  | .error e => .error e
  | .ok conds1 =>
    let step_priority : Except PyExc (List SearchCondition) :=
      if priority.isEmpty then .ok []
      else
        match field_exists env.field_map "priority" with
        | .error e => .error e
        | .ok true =>
          match MetadataManager.get_field_key env.field_map "priority" with
          | .error e => .error e
          | .ok fk =>
            .ok [⟨fk, "IN", priority.map (fun p => resolve_field_value (env.option_map fk) p)⟩]
        | .ok false => .ok []
    match step_priority with
    | .error e => .error e
    | .ok conds2 =>
      let conds3 : List SearchCondition :=
        match owner with
        | some o =>
          match env.user_key o with
          | .ok uk => [⟨"owner", "IN", [uk]⟩]
          | .error _ => []
        | none => []
      .ok (conds1 ++ conds2 ++ conds3)

end WorkItemProvider

/-- Whether an `Except` result is a success (`.ok`). -/
def exceptOk : Except PyExc String → Bool
  | .ok _ => true
  | .error _ => false

/-! Concrete instances used as counterexamples and witnesses. -/

/-- A field map with no entry for `status`, neither as key nor as value. -/
def fmC1 : List (String × String) := [("优先级", "field_priority")]

/-- A provider environment over `fmC1`. -/
def envC1 : WorkItemProvider.ProviderEnv :=
  ⟨fmC1, fun _ => [], fun _ => .error (.exc "用户 未找到"), .ok 0, .ok ()⟩

/-- A project type map that does not contain the default type 问题管理. -/
def tmC2 : List (String × String) := [("需求", "type_req")]

/-- A project cache holding one fresh entry loaded at time 0. -/
def stC3 : MetadataManager.ProjState := ⟨[("A", "pk1")], some 0⟩

/-- A gateway whose fetch would repopulate the project A. -/
def gwC3 : MetadataManager.ProjGateway :=
  ⟨["pk1"], .pdict [("pk1", .pdict [("name", .pstr "A")])]⟩

/-- A project cache filled to exactly its configured maximum of 50
entries, loaded at time 0. -/
def stC4 : MetadataManager.ProjState :=
  ⟨(List.range 50).map (fun i => ("n" ++ toString i, "k" ++ toString i)), some 0⟩

/-- A gateway whose fetch returns a batch of two new projects. -/
def gwC4 : MetadataManager.ProjGateway :=
  ⟨["kF", "kG"],
    .pdict [("kF", .pdict [("name", .pstr "FRESH")]),
            ("kG", .pdict [("name", .pstr "FRESH2")])]⟩

/-- A one-entry fresh project cache (witness for the eviction theorem). -/
def stC4w : MetadataManager.ProjState := ⟨[("A", "pk1")], some 0⟩

/-- A gateway returning two projects, one of them the looked-up B. -/
def gwC4w : MetadataManager.ProjGateway :=
  ⟨["pkB", "pkC"],
    .pdict [("pkB", .pdict [("name", .pstr "B")]),
            ("pkC", .pdict [("name", .pstr "C")])]⟩

/-- A provider environment for the create-then-prioritize witness. -/
def envC5 : WorkItemProvider.ProviderEnv where
  field_map := [("description", "field_desc"), ("priority", "field_prio")]
  option_map := fun fk => if fk = "field_prio" then [("P0", "opt_p0")] else []
  user_key := fun a => if a = "张三" then .ok "u1" else .error (.exc "用户 未找到")
  create_result := .ok 42
  update_result := .ok ()

/-- A provider environment for the update-issue witness. -/
def envC9 : WorkItemProvider.ProviderEnv where
  field_map :=
    [("description", "field_desc"), ("priority", "field_prio"), ("status", "field_status")]
  option_map := fun fk =>
    if fk = "field_prio" then [("P0", "opt_p0")]
    else if fk = "field_status" then [("进行中", "opt_doing")]
    else []
  user_key := fun a => if a = "张三" then .ok "u1" else .error (.exc "用户 未找到")
  create_result := .ok 0
  update_result := .ok ()

/-- A raw item in the new `fields` shape with a select-type priority. -/
def itemC8a : WorkItemProvider.RawItem :=
  ⟨[⟨some "priority", .pdict [("label", .pstr "P0"), ("value", .pstr "opt_1")]⟩], []⟩

/-- A raw item in the legacy `field_value_pairs` shape with a user-type
owner. -/
def itemC8b : WorkItemProvider.RawItem :=
  ⟨[], [⟨some "owner", .plist [.pdict [("name", .pstr "张三")]]⟩]⟩

/-- A raw item carrying both shapes for the same field key, with
different values. -/
def itemC8c : WorkItemProvider.RawItem :=
  ⟨[⟨some "priority", .pdict [("label", .pstr "P0")]⟩],
    [⟨some "priority", .pdict [("label", .pstr "P9")]⟩]⟩

/-- An empty user cache. -/
def stC10 : MetadataManager.UserState := ⟨[], none⟩

/-- A user search result whose single entry matches the queried
identifier neither by display name nor by email. -/
def usersC10 : List MetadataManager.ApiUser :=
  [⟨some "7446873", some "李四", none, some "lisi@example.com"⟩]

/-- The contribution of one optional argument to an update-fields list:
one entry when provided, nothing when omitted. -/
def optEntry (o : Option String) (f : String → String × String) :
    List (String × String) :=
  match o with
  | some x => [f x]
  | none => []

/-! Helper lemmas about the dict model. -/

theorem lookup_dictSet_self (m : List (String × String)) (k v : String) :
    (dictSet m k v).lookup k = some v := by
  induction m with
  | nil => simp [dictSet, List.lookup]
  | cons p rest ih =>
    obtain ⟨k', v'⟩ := p
    by_cases h : k' = k
    · subst h
      simp [dictSet, List.lookup]
    · have hb : (k == k') = false := by simp [Ne.symm h]
      simp [dictSet, h, List.lookup, hb, ih]

theorem lookup_dictSet_ne (m : List (String × String)) (k v k' : String) (h : k' ≠ k) :
    (dictSet m k v).lookup k' = m.lookup k' := by
  have hb : (k' == k) = false := by simp [h]
  induction m with
  | nil => simp [dictSet, List.lookup, hb]
  | cons p rest ih =>
    obtain ⟨k'', v''⟩ := p
    by_cases h2 : k'' = k
    · subst h2
      simp [dictSet, List.lookup, hb]
    · simp [dictSet, h2, List.lookup, ih]

theorem length_dictSet_le (m : List (String × String)) (k v : String) :
    (dictSet m k v).length ≤ m.length + 1 := by
  induction m with
  | nil => simp [dictSet]
  | cons p rest ih =>
    obtain ⟨k', v'⟩ := p
    by_cases h : k' = k
    · simp [dictSet, h]
    · simp only [dictSet, if_neg h, List.length_cons]
      omega

theorem contains_keys_eq (m : List (String × String)) (s : String) :
    (dictKeys m).contains s = (m.lookup s).isSome := by
  induction m with
  | nil => simp [dictKeys, List.lookup]
  | cons p rest ih =>
    obtain ⟨k, v⟩ := p
    by_cases h : s = k
    · subst h
      simp [dictKeys, List.lookup]
    · have hb : (s == k) = false := by simp [h]
      simp [dictKeys, List.lookup, h, hb]
      simpa [dictKeys] using ih

/-! Claim C6 -/

/-- Claim C6 (amended): for every resolver over a cached name-to-key map
(field, option, role) and every supplied string s, if s is not present
among the map's keys but is equal to one of the map's values, the
resolver succeeds and returns s unchanged; in particular
get_field_key(pk, tk, s) = s whenever s is a value of the field map and
not among its keys.  (The not-a-key proviso is forced: an exact key match
takes precedence over the value-as-key fallback.) -/
theorem resolver_value_as_key_fallback (m : List (String × String)) (s : String)
    (hk : m.lookup s = none) (hv : (dictValues m).contains s = true) :
    MetadataManager.get_field_key m s = .ok s ∧
    MetadataManager.get_option_value m s = .ok s ∧
    MetadataManager.get_role_key m s = .ok s := by
  unfold MetadataManager.get_field_key MetadataManager.get_option_value
    MetadataManager.get_role_key
  rw [hk]
  have hmem : s ∈ dictValues m := by simpa using hv
  simp [hmem]

/-- Witness for C6: the field map has "field_priority" only as a value,
so the resolver returns it unchanged. -/
theorem resolver_value_as_key_fallback_witness :
    ([("优先级", "field_priority")] : List (String × String)).lookup "field_priority" = none ∧
    MetadataManager.get_field_key [("优先级", "field_priority")] "field_priority" =
      .ok "field_priority" :=
  ⟨rfl, (resolver_value_as_key_fallback [("优先级", "field_priority")] "field_priority"
    rfl rfl).1⟩

/-- Counterexample for C6 as stated: in the map [("a","b"),("b","c")] the
string "b" is a value (of key "a"), yet get_field_key returns the exact
key match "c", not "b" — the claim's final clause omits the not-a-key
hypothesis. -/
theorem field_key_value_fallback_shadowed_by_key :
    (dictValues [("a", "b"), ("b", "c")]).contains "b" = true ∧
    MetadataManager.get_field_key [("a", "b"), ("b", "c")] "b" = .ok "c" ∧
    MetadataManager.get_field_key [("a", "b"), ("b", "c")] "b" ≠ .ok "b" := by
  refine ⟨rfl, rfl, ?_⟩
  intro h
  exact absurd (Except.ok.inj h) (by decide)

/-! Claim C7 -/

/-- Claim C7 (amended): for every scope with a populated option cache,
the set of inputs accepted by get_option_value is exactly the union of
the labels (keys) and the values of the map returned by list_options;
every value listed by list_options that is not also a label resolves to
itself. -/
theorem list_options_roundtrip (m : List (String × String)) (s : String) :
    (exceptOk (MetadataManager.get_option_value (MetadataManager.list_options m) s) =
      ((dictKeys (MetadataManager.list_options m)).contains s ||
        (dictValues (MetadataManager.list_options m)).contains s)) ∧
    ((dictValues (MetadataManager.list_options m)).contains s = true →
      (dictKeys (MetadataManager.list_options m)).contains s = false →
      MetadataManager.get_option_value (MetadataManager.list_options m) s = .ok s) := by
  constructor
  · unfold MetadataManager.list_options MetadataManager.get_option_value exceptOk
    cases h : m.lookup s with
    | some v =>
      have hkeys : (dictKeys m).contains s = true := by rw [contains_keys_eq, h]; rfl
      have hmem : s ∈ dictKeys m := by simpa using hkeys
      simp [hmem]
    | none =>
      have hkeys : (dictKeys m).contains s = false := by rw [contains_keys_eq, h]; rfl
      have hnmem : s ∉ dictKeys m := by simpa using hkeys
      cases hval : (dictValues m).contains s with
      | true =>
        have hvmem : s ∈ dictValues m := by simpa using hval
        simp [hnmem, hvmem]
      | false =>
        have hvnmem : s ∉ dictValues m := by simpa using hval
        simp [hnmem, hvnmem]
  · intro hv hk
    simp only [MetadataManager.list_options] at hv hk ⊢
    have hlook : m.lookup s = none := by
      rw [contains_keys_eq] at hk
      cases h : m.lookup s with
      | some v => rw [h] at hk; simp at hk
      | none => rfl
    have hmem : s ∈ dictValues m := by simpa using hv
    unfold MetadataManager.get_option_value
    rw [hlook]
    simp [hmem]

/-- Witness for C7: "opt1" is a listed value and not a label, and
resolves to itself. -/
theorem list_options_roundtrip_witness :
    MetadataManager.get_option_value (MetadataManager.list_options [("P0", "opt1")]) "opt1" =
      .ok "opt1" :=
  (list_options_roundtrip [("P0", "opt1")] "opt1").2 rfl rfl

/-- Counterexample for C7 as stated: (1) the label "P0" is accepted by
get_option_value although it is not among the values of list_options, so
the values are not "exactly the set of accepted inputs"; (2) in
[("a","b"),("b","c")] the listed value "b" does not resolve to itself,
because it is also a label. -/
theorem list_options_roundtrip_counterexample :
    (exceptOk (MetadataManager.get_option_value
        (MetadataManager.list_options [("P0", "opt1")]) "P0") = true ∧
      (dictValues (MetadataManager.list_options [("P0", "opt1")])).contains "P0" = false) ∧
    (dictValues (MetadataManager.list_options [("a", "b"), ("b", "c")])).contains "b" = true ∧
    MetadataManager.get_option_value
      (MetadataManager.list_options [("a", "b"), ("b", "c")]) "b" ≠ .ok "b" := by
  refine ⟨⟨rfl, rfl⟩, rfl, ?_⟩
  intro h
  exact absurd (Except.ok.inj h) (by decide)

/-! Claim C8 -/

/-- Claim C8: dual-shape parsing.  An item whose fields list carries
(field_key "priority", field_value a label/value dict) extracts to the
label "P0"; an item with only the legacy field_value_pairs shape carrying
a user list extracts the first user's name 张三; and whenever the fields
list contains the key, its value is used, whatever field_value_pairs
holds. -/
theorem extract_field_value_dual_shape :
    WorkItemProvider.extract_field_value itemC8a "priority" = .pstr "P0" ∧
    WorkItemProvider.extract_field_value itemC8b "owner" = .pstr "张三" ∧
    ∀ (fields pairs : List WorkItemProvider.RawField) (k : String)
      (f : WorkItemProvider.RawField),
      fields.find? (fun g => g.field_key == some k) = some f →
      WorkItemProvider.extract_field_value ⟨fields, pairs⟩ k =
        WorkItemProvider.extract_value f.field_value := by
  refine ⟨rfl, rfl, ?_⟩
  intro fields pairs k f h
  simp [WorkItemProvider.extract_field_value, h]

/-- Witness for C8's preference clause: an item carrying both shapes for
"priority" extracts the fields-list value "P0", not the legacy "P9". -/
theorem extract_field_value_dual_shape_witness :
    WorkItemProvider.extract_field_value itemC8c "priority" = .pstr "P0" := by
  have h := extract_field_value_dual_shape.2.2 itemC8c.fields itemC8c.field_value_pairs
    "priority" ⟨some "priority", .pdict [("label", .pstr "P0")]⟩ rfl
  exact h.trans rfl

/-! Claim C1 -/

/-- Claim C1 (code bug): against a field map with no "status" entry
(neither key nor value), the field-existence probe does NOT return false
— `meta.get_field_key` raises a plain `Exception`, which the probe's
`except (ValueError, KeyError)` clause cannot catch, so the exception
escapes `_field_exists` and `filter_issues(status=["X"])` raises instead
of degrading to an unfiltered search. -/
theorem filter_issues_status_probe_exception_escapes :
    WorkItemProvider.field_exists fmC1 "status" = .error (.exc "字段 status 未找到") ∧
    WorkItemProvider.filter_conditions envC1 ["X"] [] none =
      .error (.exc "字段 status 未找到") :=
  ⟨rfl, rfl⟩

/-! Claim C2 -/

/-- Claim C2 (code bug): for a provider using the default type name
问题管理 against a project whose type listing is [("需求", "type_req")],
`_get_type_key` does NOT fall back to the first type "type_req" —
`meta.get_type_key` raises a plain `Exception`, which the
`except (ValueError, KeyError)` clause cannot catch, so the fallback
branch is unreachable and the exception propagates.  (The second half of
the claim holds: an explicitly-requested non-default name, e.g. 任务,
fails as well.) -/
theorem provider_type_key_fallback_unreachable :
    MetadataManager.get_type_key tmC2 "问题管理" = .error (.exc "工作项类型 问题管理 未找到") ∧
    WorkItemProvider.get_type_key tmC2 "问题管理" = .error (.exc "工作项类型 问题管理 未找到") ∧
    WorkItemProvider.get_type_key tmC2 "问题管理" ≠ .ok "type_req" ∧
    WorkItemProvider.get_type_key tmC2 "任务" = .error (.exc "工作项类型 任务 未找到") := by
  refine ⟨rfl, rfl, ?_, rfl⟩
  intro h
  exact Except.noConfusion h

/-! Claims C3 and C4: the project cache level. -/

theorem length_insert_project_le (c : List (String × String)) (key : String)
    (info : PyVal) :
    (MetadataManager.insert_project c key info).length ≤ c.length + 1 := by
  unfold MetadataManager.insert_project
  cases info with
  | pdict d =>
    cases h : d.lookup "name" with
    | some v =>
      cases v with
      | pstr nm =>
        by_cases hnm : nm != ""
        · simp [h, hnm, length_dictSet_le]
        · simp [h, hnm]
      | pint n => simp [h]
      | pnone => simp [h]
      | pdict es => simp [h]
      | plist es => simp [h]
    | none => simp [h]
  | pstr s => simp
  | pint n => simp
  | pnone => simp
  | plist es => simp

theorem length_fill_projects_le (ps : List (String × PyVal))
    (c : List (String × String)) :
    (MetadataManager.fill_projects c ps).length ≤ c.length + ps.length := by
  induction ps generalizing c with
  | nil => simp [MetadataManager.fill_projects]
  | cons p rest ih =>
    have h1 := length_insert_project_le c p.1 p.2
    have h2 := ih (MetadataManager.insert_project c p.1 p.2)
    have heq : MetadataManager.fill_projects c (p :: rest) =
        MetadataManager.fill_projects (MetadataManager.insert_project c p.1 p.2) rest := rfl
    rw [heq]
    simp only [List.length_cons]
    omega

/-- Claim C3 counterexample: a project entry populated at t0 = 0 with TTL
3600 and read at exactly t = t0 + TTL = 3600 is served from the cache
with zero remote fetches — the staleness test is strict (`>`), so the
claimed refresh at `t = t0 + T` does not happen. -/
theorem project_ttl_boundary_read_hits_cache :
    (0 : Int) + MetadataManager.PROJECT_TTL ≤ 3600 ∧
    MetadataManager.get_project_key stC3 3600 gwC3 "A" = (.ok "pk1", stC3, 0) :=
  ⟨by decide, rfl⟩

/-- Claim C3 (amended, shown for the project level): a value populated at
time t0 is returned unchanged, with no remote fetch, by any read at
t ≤ t0 + TTL; a read at t > t0 + TTL (strictly later than the TTL
boundary) clears the level in full and triggers exactly one fresh remote
fetch that repopulates the whole scope from scratch before the key is
looked up again. -/
theorem project_cache_ttl_strict (st : MetadataManager.ProjState) (now t0 : Int)
    (gw : MetadataManager.ProjGateway) (name k : String)
    (hl : st.last_loaded = some t0) (hc : st.cache.lookup name = some k) :
    (now - t0 ≤ MetadataManager.PROJECT_TTL →
      MetadataManager.get_project_key st now gw name = (.ok k, st, 0)) ∧
    (MetadataManager.PROJECT_TTL < now - t0 →
      MetadataManager.get_project_key st now gw name =
        (if gw.project_keys.isEmpty then
          (.error (.exc "未找到任何项目空间"), MetadataManager.ProjState.mk [] none, 1)
        else
          let nc := MetadataManager.fill_projects []
            (MetadataManager.normalize_project_details gw.details)
          ((match nc.lookup name with
            | some k' => .ok k'
            | none => .error (.exc ("项目空间 " ++ name ++ " 未找到"))),
            MetadataManager.ProjState.mk nc (some now), 1))) := by
  constructor
  · intro h
    have hexp : MetadataManager.is_cache_expired st.last_loaded now
        MetadataManager.PROJECT_TTL = false := by
      simp only [MetadataManager.is_cache_expired, hl]
      simpa using h
    unfold MetadataManager.get_project_key
    rw [hc, hexp]
    rfl
  · intro h
    have hexp : MetadataManager.is_cache_expired st.last_loaded now
        MetadataManager.PROJECT_TTL = true := by
      simp only [MetadataManager.is_cache_expired, hl]
      simpa using h
    unfold MetadataManager.get_project_key MetadataManager.get_project_key_locked
      MetadataManager.get_project_key_load
    rw [hc, hexp]
    simp only [Bool.not_true, if_true, List.lookup_nil]
    cases hk : gw.project_keys.isEmpty with
    | true => simp [hk]
    | false =>
      simp only [hk, if_false, Bool.false_eq_true]
      have hbase : (if MetadataManager.max_project_cache_size ≤
          (MetadataManager.ProjState.mk [] none).cache.length then
            (MetadataManager.ProjState.mk [] none).cache.tail
          else (MetadataManager.ProjState.mk [] none).cache) = [] := by
        simp [MetadataManager.max_project_cache_size]
      simp only [hbase]
      cases hl2 : List.lookup name (MetadataManager.fill_projects []
          (MetadataManager.normalize_project_details gw.details)) <;>
        simp [hl2]

/-- Witness for C3: the same cache read strictly after the boundary
(t = 5000 > 3600) is repopulated with exactly one fetch. -/
theorem project_cache_ttl_strict_witness :
    MetadataManager.get_project_key stC3 5000 gwC3 "A" =
      (.ok "pk1", MetadataManager.ProjState.mk [("A", "pk1")] (some 5000), 1) := by
  have h := (project_cache_ttl_strict stC3 5000 0 gwC3 "A" "pk1" rfl rfl).2 (by decide)
  exact h.trans rfl

/-- Claim C4 counterexample: a project cache holding exactly its maximum
of 50 entries (fresh, looked-up name missing) receives a fetched batch of
two projects; only one oldest entry is evicted before the whole batch is
inserted, so the level ends with 51 > 50 entries — the claimed at-most-N
invariant is violated. -/
theorem project_cache_exceeds_bound_after_load :
    ((MetadataManager.get_project_key stC4 100 gwC4 "FRESH").2.1).cache.length = 51 ∧
    MetadataManager.max_project_cache_size < 51 :=
  ⟨rfl, by decide⟩

/-- Claim C4 (amended): only the project level evicts, and only once per
repopulation: when the level already holds at least 50 entries at load
time, the single oldest-inserted entry is dropped before the entire
fetched batch is inserted, so the resulting size is bounded by
(previous size - 1) + batch size and can exceed 50; no per-insertion
check is made. -/
theorem project_cache_single_eviction_per_load (st : MetadataManager.ProjState)
    (now : Int) (gw : MetadataManager.ProjGateway) (name : String)
    (hfresh : MetadataManager.is_cache_expired st.last_loaded now
      MetadataManager.PROJECT_TTL = false)
    (hmiss : st.cache.lookup name = none)
    (hkeys : gw.project_keys.isEmpty = false) :
    (MetadataManager.get_project_key st now gw name =
      (let projects := MetadataManager.normalize_project_details gw.details
       let base := if MetadataManager.max_project_cache_size ≤ st.cache.length
         then st.cache.tail else st.cache
       let nc := MetadataManager.fill_projects base projects
       ((match nc.lookup name with
         | some k => .ok k
         | none => .error (.exc ("项目空间 " ++ name ++ " 未找到"))),
        MetadataManager.ProjState.mk nc (some now), 1))) ∧
    (MetadataManager.fill_projects
        (if MetadataManager.max_project_cache_size ≤ st.cache.length
          then st.cache.tail else st.cache)
        (MetadataManager.normalize_project_details gw.details)).length ≤
      (if MetadataManager.max_project_cache_size ≤ st.cache.length
        then st.cache.length - 1 else st.cache.length) +
      (MetadataManager.normalize_project_details gw.details).length := by
  constructor
  · unfold MetadataManager.get_project_key MetadataManager.get_project_key_locked
      MetadataManager.get_project_key_load
    rw [hmiss, hfresh]
    simp only [if_false, Bool.false_eq_true]
    rw [hmiss, hkeys]
    simp only [if_false, Bool.false_eq_true]
    cases hl2 : List.lookup name (MetadataManager.fill_projects
        (if MetadataManager.max_project_cache_size ≤ st.cache.length
          then st.cache.tail else st.cache)
        (MetadataManager.normalize_project_details gw.details)) <;>
      simp [hl2]
  · by_cases hb : MetadataManager.max_project_cache_size ≤ st.cache.length
    · have h1 := length_fill_projects_le
        (MetadataManager.normalize_project_details gw.details) st.cache.tail
      have h2 : st.cache.tail.length = st.cache.length - 1 := by
        simp [List.length_tail]
      simp only [hb, if_true, if_pos]
      omega
    · have h1 := length_fill_projects_le
        (MetadataManager.normalize_project_details gw.details) st.cache
      simp only [hb, if_false, if_neg]
      omega

/-- Witness for C4: a fresh one-entry cache (below the maximum) receives
a batch of two projects with no eviction, ending at three entries. -/
theorem project_cache_single_eviction_per_load_witness :
    MetadataManager.get_project_key stC4w 100 gwC4w "B" =
      (.ok "pkB",
        MetadataManager.ProjState.mk [("A", "pk1"), ("B", "pkB"), ("C", "pkC")] (some 100),
        1) := by
  have h := (project_cache_single_eviction_per_load stC4w 100 gwC4w "B"
    rfl rfl rfl).1
  exact h.trans rfl

/-! Claim C5 -/

/-- Claim C5: for every create_issue call with a non-empty priority in
which the underlying create succeeds, exactly one create call is issued
and its field list carries only the description/assignee entries (no
entry derived from the priority argument), followed by exactly one update
call whose fields contain the resolved priority option value when the
priority field key resolves; if resolving the priority field key raises,
no update is attempted; in every such case the error is swallowed and
create_issue still returns the created id. -/
theorem create_issue_create_then_prioritize (env : WorkItemProvider.ProviderEnv)
    (name priority description : String) (assignee : Option String)
    (issue_id : Int) (dk uk : String)
    (hp : priority ≠ "")
    (hc : env.create_result = .ok issue_id)
    (hd : description ≠ "" →
      MetadataManager.get_field_key env.field_map "description" = .ok dk)
    (ha : ∀ a, assignee = some a → env.user_key a = .ok uk) :
    WorkItemProvider.create_issue env name priority description assignee =
      (let cf := (if description = "" then [] else [(dk, description)]) ++
        (match assignee with | some _ => [("owner", uk)] | none => [])
       ((match MetadataManager.get_field_key env.field_map "priority" with
        | .ok pk =>
          [WorkItemProvider.ApiCall.create name cf,
            WorkItemProvider.ApiCall.update issue_id
              [(pk, WorkItemProvider.resolve_field_value (env.option_map pk) priority)]]
        | .error _ => [WorkItemProvider.ApiCall.create name cf]),
       Except.ok issue_id)) := by
  have hpb : (priority != "") = true := by simpa using hp
  by_cases hdesc : description = ""
  · have hdb : (description != "") = false := by simp [hdesc]
    cases assignee with
    | none =>
      cases hgp : MetadataManager.get_field_key env.field_map "priority" with
      | ok pk =>
        cases hur : env.update_result <;>
          simp [WorkItemProvider.create_issue, hdb, hpb, hc, hgp, hur, hdesc]
      | error e =>
        simp [WorkItemProvider.create_issue, hdb, hpb, hc, hgp, hdesc]
    | some a =>
      have hua := ha a rfl
      cases hgp : MetadataManager.get_field_key env.field_map "priority" with
      | ok pk =>
        cases hur : env.update_result <;>
          simp [WorkItemProvider.create_issue, hdb, hpb, hc, hgp, hur, hdesc, hua]
      | error e =>
        simp [WorkItemProvider.create_issue, hdb, hpb, hc, hgp, hdesc, hua]
  · have hdb : (description != "") = true := by simpa using hdesc
    have hdk := hd hdesc
    cases assignee with
    | none =>
      cases hgp : MetadataManager.get_field_key env.field_map "priority" with
      | ok pk =>
        cases hur : env.update_result <;>
          simp [WorkItemProvider.create_issue, hdb, hpb, hc, hgp, hur, hdesc, hdk]
      | error e =>
        simp [WorkItemProvider.create_issue, hdb, hpb, hc, hgp, hdesc, hdk]
    | some a =>
      have hua := ha a rfl
      cases hgp : MetadataManager.get_field_key env.field_map "priority" with
      | ok pk =>
        cases hur : env.update_result <;>
          simp [WorkItemProvider.create_issue, hdb, hpb, hc, hgp, hur, hdesc, hdk, hua]
      | error e =>
        simp [WorkItemProvider.create_issue, hdb, hpb, hc, hgp, hdesc, hdk, hua]

/-- Witness for C5: a concrete environment in which createIssue(name="T",
priority="P0", description="d", assignee=张三) issues exactly one create
call without a priority entry and one update call carrying the resolved
option value. -/
theorem create_issue_create_then_prioritize_witness :
    WorkItemProvider.create_issue envC5 "T" "P0" "d" (some "张三") =
      ([WorkItemProvider.ApiCall.create "T" [("field_desc", "d"), ("owner", "u1")],
        WorkItemProvider.ApiCall.update 42 [("field_prio", "opt_p0")]], .ok 42) := by
  have h := create_issue_create_then_prioritize envC5 "T" "P0" "d" (some "张三") 42
    "field_desc" "u1" (by decide) rfl (fun _ => rfl) (fun a hh => by cases hh; rfl)
  exact h.trans rfl

/-! Claim C9 -/

/-- Claim C9: for every update_issue call whose needed resolutions
succeed, the update-fields list sent to the remote API contains exactly
one entry per argument (name, priority, description, status, assignee)
that is not None and no entry for any omitted argument; when all five
optional arguments are None, update_issue makes no remote update call at
all. -/
theorem update_issue_only_provided_fields (env : WorkItemProvider.ProviderEnv)
    (issue_id : Int) (name priority description status assignee : Option String)
    (dk pk sk uk : String)
    (hd : ∀ d, description = some d →
      MetadataManager.get_field_key env.field_map "description" = .ok dk)
    (hp : ∀ p, priority = some p →
      MetadataManager.get_field_key env.field_map "priority" = .ok pk)
    (hs : ∀ s, status = some s →
      MetadataManager.get_field_key env.field_map "status" = .ok sk)
    (ha : ∀ a, assignee = some a → env.user_key a = .ok uk) :
    WorkItemProvider.update_issue env issue_id name priority description status assignee =
      (let expected := optEntry name (fun n => ("name", n)) ++
        optEntry description (fun d => (dk, d)) ++
        optEntry priority
          (fun p => (pk, WorkItemProvider.resolve_field_value (env.option_map pk) p)) ++
        optEntry status
          (fun s => (sk, WorkItemProvider.resolve_field_value (env.option_map sk) s)) ++
        optEntry assignee (fun _ => ("owner", uk))
       if expected.isEmpty then ([], .ok ())
       else ([WorkItemProvider.ApiCall.update issue_id expected], env.update_result)) := by
  have hbuild : WorkItemProvider.build_update_fields env name priority description
      status assignee =
      .ok (optEntry name (fun n => ("name", n)) ++
        optEntry description (fun d => (dk, d)) ++
        optEntry priority
          (fun p => (pk, WorkItemProvider.resolve_field_value (env.option_map pk) p)) ++
        optEntry status
          (fun s => (sk, WorkItemProvider.resolve_field_value (env.option_map sk) s)) ++
        optEntry assignee (fun _ => ("owner", uk))) := by
    cases name <;> cases description <;> cases priority <;> cases status <;>
      cases assignee <;>
      simp_all [WorkItemProvider.build_update_fields, optEntry]
  unfold WorkItemProvider.update_issue
  rw [hbuild]

/-- Witness for C9: with all five arguments provided the single update
call carries exactly five entries in source order; with none provided no
remote call is made. -/
theorem update_issue_only_provided_fields_witness :
    WorkItemProvider.update_issue envC9 7 (some "N") (some "P0") (some "D")
      (some "进行中") (some "张三") =
      ([WorkItemProvider.ApiCall.update 7
        [("name", "N"), ("field_desc", "D"), ("field_prio", "opt_p0"),
          ("field_status", "opt_doing"), ("owner", "u1")]], .ok ()) ∧
    WorkItemProvider.update_issue envC9 7 none none none none none = ([], .ok ()) := by
  constructor
  · have h := update_issue_only_provided_fields envC9 7 (some "N") (some "P0")
      (some "D") (some "进行中") (some "张三") "field_desc" "field_prio"
      "field_status" "u1" (fun d hh => by cases hh; rfl) (fun p hh => by cases hh; rfl)
      (fun s hh => by cases hh; rfl) (fun a hh => by cases hh; rfl)
    exact h.trans rfl
  · have h := update_issue_only_provided_fields envC9 7 none none none none none
      "x" "x" "x" "x" (fun d hh => by cases hh) (fun p hh => by cases hh)
      (fun s hh => by cases hh) (fun a hh => by cases hh)
    exact h.trans rfl

/-! Claim C10 -/

theorem lookup_fill_user_ne (c : List (String × String)) (u : MetadataManager.ApiUser)
    (id : String) (h1 : u.name_cn ≠ some id) (h2 : u.name_en ≠ some id)
    (h3 : u.email ≠ some id) :
    (MetadataManager.fill_user c u).lookup id = c.lookup id := by
  unfold MetadataManager.fill_user
  by_cases htk : MetadataManager.truthyStr u.user_key
  case neg => simp [htk]
  case pos =>
    simp only [htk, if_true]
    have ho : MetadataManager.orStr u.name_cn u.name_en ≠ some id := by
      unfold MetadataManager.orStr
      by_cases htc : MetadataManager.truthyStr u.name_cn
      · simpa [htc] using h1
      · simpa [htc] using h2
    cases hon : MetadataManager.orStr u.name_cn u.name_en with
    | none =>
      cases hoe : u.email with
      | none => simp
      | some em =>
        have hnee : id ≠ em := by
          intro hh
          exact h3 (by rw [hoe, hh])
        by_cases hb : (em != "") = true
        · simp [hb, lookup_dictSet_ne _ _ _ _ hnee]
        · simp [hb]
    | some nm =>
      have hnm : id ≠ nm := by
        intro hh
        rw [hon, hh] at ho
        exact ho rfl
      cases hoe : u.email with
      | none =>
        by_cases hb1 : (nm != "") = true
        · simp [hb1, lookup_dictSet_ne _ _ _ _ hnm]
        · simp [hb1]
      | some em =>
        have hnee : id ≠ em := by
          intro hh
          exact h3 (by rw [hoe, hh])
        by_cases hb1 : (nm != "") = true <;> by_cases hb2 : (em != "") = true <;>
          simp [hb1, hb2, lookup_dictSet_ne _ _ _ _ hnm, lookup_dictSet_ne _ _ _ _ hnee]

theorem lookup_foldl_fill_user (users : List MetadataManager.ApiUser)
    (c : List (String × String)) (id : String)
    (h : ∀ u ∈ users, u.name_cn ≠ some id ∧ u.name_en ≠ some id ∧ u.email ≠ some id) :
    (users.foldl MetadataManager.fill_user c).lookup id = c.lookup id := by
  induction users generalizing c with
  | nil => rfl
  | cons u rest ih =>
    simp only [List.foldl_cons]
    rw [ih _ (fun v hv => h v (List.mem_cons_of_mem u hv))]
    have hu := h u (List.mem_cons_self u rest)
    exact lookup_fill_user_ne c u id hu.1 hu.2.1 hu.2.2

/-- Claim C10: for every identifier that misses the user cache, is not
classified as an already-resolved key by the heuristic, and for which the
remote search returns a non-empty list containing no user whose display
name (name_cn / name_en) or email equals the identifier, get_user_key
does not raise when the first result carries a truthy user_key: it
returns that key and caches identifier -> key; it raises a not-found
error only when the first result's user_key is missing or empty (the
empty search result being excluded by hypothesis). -/
theorem get_user_key_first_result_fallback (st : MetadataManager.UserState)
    (now : Int) (users : List MetadataManager.ApiUser) (identifier : String)
    (u0 : MetadataManager.ApiUser) (rest : List MetadataManager.ApiUser)
    (hmiss : st.cache.lookup identifier = none)
    (hheur : MetadataManager.looks_like_user_key identifier = false)
    (husers : users = u0 :: rest)
    (hnomatch : ∀ u ∈ users, u.name_cn ≠ some identifier ∧
      u.name_en ≠ some identifier ∧ u.email ≠ some identifier) :
    (∀ k, u0.user_key = some k → k ≠ "" →
      (MetadataManager.get_user_key st now users identifier).1 = .ok k ∧
      (MetadataManager.get_user_key st now users identifier).2.cache.lookup identifier =
        some k) ∧
    (MetadataManager.truthyStr u0.user_key = false →
      ∃ msg, (MetadataManager.get_user_key st now users identifier).1 =
        .error (.exc msg)) := by
  subst husers
  unfold MetadataManager.get_user_key MetadataManager.get_user_key_locked
  rw [hmiss]
  by_cases hexp : MetadataManager.is_cache_expired st.last_loaded now
      MetadataManager.USER_TTL
  · have hfold : ((u0 :: rest).foldl MetadataManager.fill_user
        ([] : List (String × String))).lookup identifier = none := by
      rw [lookup_foldl_fill_user _ _ _ hnomatch]
      rfl
    simp only [List.foldl_cons] at hfold
    constructor
    · intro k hk hke
      have htk : MetadataManager.truthyStr u0.user_key = true := by
        rw [hk]
        simpa [MetadataManager.truthyStr] using hke
      have hgd : u0.user_key.getD "" = k := by rw [hk]; rfl
      simp [hexp, hheur, hfold, htk, hgd, lookup_dictSet_self]
    · intro htk
      refine ⟨"用户 " ++ identifier ++ " 未找到有效的 user_key", ?_⟩
      simp [hexp, hheur, hfold, htk]
  · have hexpf : MetadataManager.is_cache_expired st.last_loaded now
        MetadataManager.USER_TTL = false := by simpa using hexp
    have hfold : ((u0 :: rest).foldl MetadataManager.fill_user st.cache).lookup
        identifier = none := by
      rw [lookup_foldl_fill_user _ _ _ hnomatch]
      exact hmiss
    simp only [List.foldl_cons] at hfold
    constructor
    · intro k hk hke
      have htk : MetadataManager.truthyStr u0.user_key = true := by
        rw [hk]
        simpa [MetadataManager.truthyStr] using hke
      have hgd : u0.user_key.getD "" = k := by rw [hk]; rfl
      simp [hexpf, hheur, hmiss, hfold, htk, hgd, lookup_dictSet_self]
    · intro htk
      refine ⟨"用户 " ++ identifier ++ " 未找到有效的 user_key", ?_⟩
      simp [hexpf, hheur, hmiss, hfold, htk]

/-- Witness for C10: an empty cache, the CJK identifier 张三 (rejected by
the key heuristic), and a one-element search result matching neither name
nor email: the first result's key is returned and cached. -/
theorem get_user_key_first_result_fallback_witness :
    (MetadataManager.get_user_key stC10 1000 usersC10 "张三").1 = .ok "7446873" ∧
    (MetadataManager.get_user_key stC10 1000 usersC10 "张三").2.cache.lookup "张三" =
      some "7446873" := by
  have h := (get_user_key_first_result_fallback stC10 1000 usersC10 "张三"
    ⟨some "7446873", some "李四", none, some "lisi@example.com"⟩ [] rfl rfl rfl
    (by
      intro u hu
      have : u = ⟨some "7446873", some "李四", none, some "lisi@example.com"⟩ := by
        simpa [usersC10] using hu
      subst this
      exact ⟨by decide, by decide, by decide⟩)).1 "7446873" rfl (by decide)
  exact h
